import Mathlib

/-!
Verification of the PSO brain-tumour segmentation pipeline.

The Python sources are embedded shallowly:
* numpy arrays (images, binary masks) become flat lists; `arr.sum()`,
  elementwise `&`, `|` and `>` become list operations;
* Python floats become rationals (`ℚ`), with the smoothing constant
  `EPS = 1e-8` carried exactly;
* fallible steps (file loading, exceptions caught by `try/except`)
  become `Except` / `Option` values.
-/

namespace PSO

/-- Embeds metrics.py `EPS = 1e-8`, the smoothing constant added to every
denominator. -/
def EPS : ℚ := 1 / 100000000

/-- A mask is a flattened numpy integer array (row-major order). -/
abbrev Mask := List Nat

/-- An image is a flattened numpy float array, intensities in [0,1]. -/
abbrev Image := List ℚ

/-- Embeds numpy `arr.sum()` on an integer mask. -/
def npSum (m : Mask) : Nat := m.sum

/-- Embeds numpy elementwise bitwise `gt & pred` on equal-shape arrays. -/
def npAnd (g p : Mask) : Mask := List.zipWith Nat.land g p

/-- Embeds numpy elementwise bitwise `gt | pred` on equal-shape arrays. -/
def npOr (g p : Mask) : Mask := List.zipWith Nat.lor g p

/-- Embeds numpy `(img > t).astype(np.uint8)`: elementwise strict
comparison producing a 0/1 mask. -/
def npGt (img : Image) (t : ℚ) : Mask := img.map (fun x => if t < x then 1 else 0)

/-- Embeds numpy `np.zeros_like(mask)`. -/
def npZerosLike (m : Mask) : Mask := List.replicate m.length 0

/-- A binary mask: every entry is 0 or 1. -/
def Binary (m : Mask) : Prop := ∀ x ∈ m, x ≤ 1

instance decidableBinary (m : Mask) : Decidable (Binary m) := by
  unfold Binary; exact List.decidableBAll _ m

/-- Embeds metrics.py `dice_coefficient` (lines 13-38). -/
def dice_coefficient (gt pred : Mask) : ℚ :=
  if npSum gt = 0 ∧ npSum pred = 0 then 1
  else 2 * (npSum (npAnd gt pred) : ℚ) / ((npSum gt : ℚ) + (npSum pred : ℚ) + EPS)

/-- Embeds metrics.py `iou_coefficient` (lines 41-66). -/
def iou_coefficient (gt pred : Mask) : ℚ :=
  if npSum gt = 0 ∧ npSum pred = 0 then 1
  else (npSum (npAnd gt pred) : ℚ) / ((npSum (npOr gt pred) : ℚ) + EPS)

/-- Embeds metrics.py `precision_coefficient` (lines 69-93). -/
def precision_coefficient (gt pred : Mask) : ℚ :=
  if npSum pred = 0 then (if npSum gt = 0 then 1 else 0)
  else (npSum (npAnd gt pred) : ℚ) / ((npSum pred : ℚ) + EPS)

/-- Embeds metrics.py `recall_coefficient` (lines 96-120). -/
def recall_coefficient (gt pred : Mask) : ℚ :=
  if npSum gt = 0 then (if npSum pred = 0 then 1 else 0)
  else (npSum (npAnd gt pred) : ℚ) / ((npSum gt : ℚ) + EPS)

/-- Embeds metrics.py `compute_all_metrics` (lines 123-156): the
single-pass variant with its own guards, returning
(dice, iou, precision, recall). -/
def compute_all_metrics (gt pred : Mask) : ℚ × ℚ × ℚ × ℚ :=
  if npSum gt = 0 ∧ npSum pred = 0 then (1, 1, 1, 1)
  else
    ( if 0 < npSum gt + npSum pred then
        2 * (npSum (npAnd gt pred) : ℚ) / ((npSum gt : ℚ) + (npSum pred : ℚ) + EPS)
      else 0,
      if 0 < npSum (npOr gt pred) then
        (npSum (npAnd gt pred) : ℚ) / ((npSum (npOr gt pred) : ℚ) + EPS)
      else 0,
      if 0 < npSum pred then
        (npSum (npAnd gt pred) : ℚ) / ((npSum pred : ℚ) + EPS)
      else (if npSum gt = 0 then 1 else 0),
      if 0 < npSum gt then
        (npSum (npAnd gt pred) : ℚ) / ((npSum gt : ℚ) + EPS)
      else (if npSum pred = 0 then 1 else 0) )

example : dice_coefficient [1, 0] [1, 1] = 2 / (3 + EPS) := by
  have h1 : npSum (npAnd [1, 0] [1, 1]) = 1 := by decide
  have h2 : npSum [1, 0] = 1 := by decide
  have h3 : npSum [1, 1] = 2 := by decide
  norm_num [dice_coefficient, h1, h2, h3]

example : precision_coefficient [0, 0] [0, 0] = 1 := by decide

lemma binary_cons {x : Nat} {xs : List Nat} :
    Binary (x :: xs) ↔ x ≤ 1 ∧ Binary xs := by
  simp [Binary]

lemma bin_land_le_left {x y : Nat} (hx : x ≤ 1) (hy : y ≤ 1) :
    Nat.land x y ≤ x := by
  interval_cases x <;> interval_cases y <;> decide

lemma bin_land_le_right {x y : Nat} (hx : x ≤ 1) (hy : y ≤ 1) :
    Nat.land x y ≤ y := by
  interval_cases x <;> interval_cases y <;> decide

lemma bin_le_lor_left {x y : Nat} (hx : x ≤ 1) (hy : y ≤ 1) :
    x ≤ Nat.lor x y := by
  interval_cases x <;> interval_cases y <;> decide

lemma bin_le_lor_right {x y : Nat} (hx : x ≤ 1) (hy : y ≤ 1) :
    y ≤ Nat.lor x y := by
  interval_cases x <;> interval_cases y <;> decide

lemma bin_add_le_two_lor {x y : Nat} (hx : x ≤ 1) (hy : y ≤ 1) :
    x + y ≤ 2 * Nat.lor x y := by
  interval_cases x <;> interval_cases y <;> decide

lemma npSum_npAnd_le_left {g p : Mask} (hg : Binary g) (hp : Binary p) :
    npSum (npAnd g p) ≤ npSum g := by
  induction g generalizing p with
  | nil => simp [npAnd, npSum]
  | cons x xs ih =>
    cases p with
    | nil => simp [npAnd, npSum]
    | cons y ys =>
      have hg' := binary_cons.mp hg
      have hp' := binary_cons.mp hp
      simpa [npAnd, npSum] using
        Nat.add_le_add (bin_land_le_left hg'.1 hp'.1) (ih hg'.2 hp'.2)

lemma npSum_npAnd_le_right {g p : Mask} (hg : Binary g) (hp : Binary p) :
    npSum (npAnd g p) ≤ npSum p := by
  induction g generalizing p with
  | nil => simp [npAnd, npSum]
  | cons x xs ih =>
    cases p with
    | nil => simp [npAnd, npSum]
    | cons y ys =>
      have hg' := binary_cons.mp hg
      have hp' := binary_cons.mp hp
      simpa [npAnd, npSum] using
        Nat.add_le_add (bin_land_le_right hg'.1 hp'.1) (ih hg'.2 hp'.2)

lemma npSum_le_npOr_left {g p : Mask} (hl : g.length = p.length)
    (hg : Binary g) (hp : Binary p) : npSum g ≤ npSum (npOr g p) := by
  induction g generalizing p with
  | nil => simp [npOr, npSum]
  | cons x xs ih =>
    cases p with
    | nil => simp at hl
    | cons y ys =>
      have hg' := binary_cons.mp hg
      have hp' := binary_cons.mp hp
      have hl' : xs.length = ys.length := by simpa using hl
      simpa [npOr, npSum] using
        Nat.add_le_add (bin_le_lor_left hg'.1 hp'.1) (ih hl' hg'.2 hp'.2)

lemma npSum_le_npOr_right {g p : Mask} (hl : g.length = p.length)
    (hg : Binary g) (hp : Binary p) : npSum p ≤ npSum (npOr g p) := by
  induction g generalizing p with
  | nil =>
    cases p with
    | nil => simp [npOr, npSum]
    | cons y ys => simp at hl
  | cons x xs ih =>
    cases p with
    | nil => simp at hl
    | cons y ys =>
      have hg' := binary_cons.mp hg
      have hp' := binary_cons.mp hp
      have hl' : xs.length = ys.length := by simpa using hl
      simpa [npOr, npSum] using
        Nat.add_le_add (bin_le_lor_right hg'.1 hp'.1) (ih hl' hg'.2 hp'.2)

lemma npSum_add_le_two_npOr {g p : Mask} (hl : g.length = p.length)
    (hg : Binary g) (hp : Binary p) :
    npSum g + npSum p ≤ 2 * npSum (npOr g p) := by
  induction g generalizing p with
  | nil =>
    cases p with
    | nil => simp [npOr, npSum]
    | cons y ys => simp at hl
  | cons x xs ih =>
    cases p with
    | nil => simp at hl
    | cons y ys =>
      have hg' := binary_cons.mp hg
      have hp' := binary_cons.mp hp
      have hl' : xs.length = ys.length := by simpa using hl
      have h1 := bin_add_le_two_lor hg'.1 hp'.1
      have h2 := ih hl' hg'.2 hp'.2
      simp only [npOr, npSum, List.zipWith_cons_cons, List.sum_cons] at h2 ⊢
      omega

lemma EPS_pos : (0 : ℚ) < EPS := by norm_num [EPS]

/-- C1: for every pair of equal-shape binary masks G and P,
`precision_coefficient` and `recall_coefficient` follow the four-way
edge-case table exactly: precision is 1 if sumP = 0 and sumG = 0, is 0 if
sumP = 0 and sumG > 0, and otherwise equals intersection / (sumP + ε)
with ε = 1e-8; recall is the symmetric table with the roles of G and P
exchanged. -/
theorem precision_recall_edge_cases (g p : Mask) (hl : g.length = p.length) :
    (npSum p = 0 → npSum g = 0 → precision_coefficient g p = 1) ∧
    (npSum p = 0 → 0 < npSum g → precision_coefficient g p = 0) ∧
    (npSum p ≠ 0 → precision_coefficient g p =
      (npSum (npAnd g p) : ℚ) / ((npSum p : ℚ) + EPS)) ∧
    (npSum g = 0 → npSum p = 0 → recall_coefficient g p = 1) ∧
    (npSum g = 0 → 0 < npSum p → recall_coefficient g p = 0) ∧
    (npSum g ≠ 0 → recall_coefficient g p =
      (npSum (npAnd g p) : ℚ) / ((npSum g : ℚ) + EPS)) := by
  refine ⟨fun h1 h2 => ?_, fun h1 h2 => ?_, fun h1 => ?_,
         fun h1 h2 => ?_, fun h1 h2 => ?_, fun h1 => ?_⟩
  · simp [precision_coefficient, h1, h2]
  · have h2' : npSum g ≠ 0 := Nat.pos_iff_ne_zero.mp h2
    simp [precision_coefficient, h1, h2']
  · simp [precision_coefficient, h1]
  · simp [recall_coefficient, h1, h2]
  · have h2' : npSum p ≠ 0 := Nat.pos_iff_ne_zero.mp h2
    simp [recall_coefficient, h1, h2']
  · simp [recall_coefficient, h1]

/-- Witness for C1 at a concrete input: an empty prediction against a
non-empty reference yields precision 0. -/
theorem precision_recall_edge_cases_witness :
    ([1, 0] : Mask).length = ([0, 0] : Mask).length ∧
    npSum ([0, 0] : Mask) = 0 ∧ 0 < npSum ([1, 0] : Mask) ∧
    precision_coefficient [1, 0] [0, 0] = 0 :=
  ⟨rfl, by decide, by decide,
    (precision_recall_edge_cases [1, 0] [0, 0] rfl).2.1 (by decide) (by decide)⟩

/-- C3: for every pair of equal-shape binary masks G and P,
iou(G,P) ≤ dice(G,P) ≤ 1, and both equal exactly 1 when G and P are both
all-zero. -/
theorem iou_le_dice_le_one (g p : Mask) (hl : g.length = p.length)
    (hg : Binary g) (hp : Binary p) :
    iou_coefficient g p ≤ dice_coefficient g p ∧ dice_coefficient g p ≤ 1 ∧
    (npSum g = 0 → npSum p = 0 →
      iou_coefficient g p = 1 ∧ dice_coefficient g p = 1) := by
  by_cases hz : npSum g = 0 ∧ npSum p = 0
  · simp [iou_coefficient, dice_coefficient, hz]
  · have hI₁ : npSum (npAnd g p) ≤ npSum g := npSum_npAnd_le_left hg hp
    have hI₂ : npSum (npAnd g p) ≤ npSum p := npSum_npAnd_le_right hg hp
    have hU : npSum g + npSum p ≤ 2 * npSum (npOr g p) :=
      npSum_add_le_two_npOr hl hg hp
    have hd₁ : (0 : ℚ) < (npSum (npOr g p) : ℚ) + EPS := by
      have := EPS_pos
      have : (0 : ℚ) ≤ (npSum (npOr g p) : ℚ) := Nat.cast_nonneg _
      nlinarith [EPS_pos]
    have hd₂ : (0 : ℚ) < (npSum g : ℚ) + (npSum p : ℚ) + EPS := by
      have h1 : (0 : ℚ) ≤ (npSum g : ℚ) := Nat.cast_nonneg _
      have h2 : (0 : ℚ) ≤ (npSum p : ℚ) := Nat.cast_nonneg _
      nlinarith [EPS_pos]
    rw [iou_coefficient, dice_coefficient, if_neg hz, if_neg hz]
    refine ⟨?_, ?_, fun h1 h2 => absurd ⟨h1, h2⟩ hz⟩
    · rw [div_le_div_iff hd₁ hd₂]
      have hIq : (0 : ℚ) ≤ (npSum (npAnd g p) : ℚ) := Nat.cast_nonneg _
      have hUq : (npSum g : ℚ) + (npSum p : ℚ) ≤ 2 * (npSum (npOr g p) : ℚ) := by
        exact_mod_cast hU
      nlinarith [mul_le_mul_of_nonneg_left hUq hIq,
        mul_nonneg hIq (le_of_lt EPS_pos)]
    · rw [div_le_one hd₂]
      have h2I : (npSum (npAnd g p) : ℚ) + (npSum (npAnd g p) : ℚ) ≤
          (npSum g : ℚ) + (npSum p : ℚ) := by
        exact_mod_cast Nat.add_le_add hI₁ hI₂
      nlinarith [EPS_pos]

/-- Witness for C3 at a concrete input. -/
theorem iou_le_dice_le_one_witness :
    Binary ([1, 0] : Mask) ∧ Binary ([1, 1] : Mask) ∧
    (iou_coefficient [1, 0] [1, 1] ≤ dice_coefficient [1, 0] [1, 1] ∧
     dice_coefficient [1, 0] [1, 1] ≤ 1 ∧
     (npSum ([1, 0] : Mask) = 0 → npSum ([1, 1] : Mask) = 0 →
       iou_coefficient [1, 0] [1, 1] = 1 ∧ dice_coefficient [1, 0] [1, 1] = 1)) :=
  ⟨by decide, by decide, iou_le_dice_le_one [1, 0] [1, 1] rfl (by decide) (by decide)⟩

/-- C10: on equal-shape binary masks the single-pass
`compute_all_metrics` returns exactly the quadruple of the four
individual metric functions. -/
theorem compute_all_metrics_eq_individual (g p : Mask) (hl : g.length = p.length)
    (hg : Binary g) (hp : Binary p) :
    compute_all_metrics g p =
      (dice_coefficient g p, iou_coefficient g p, precision_coefficient g p,
       recall_coefficient g p) := by
  by_cases hz : npSum g = 0 ∧ npSum p = 0
  · unfold compute_all_metrics dice_coefficient iou_coefficient
      precision_coefficient recall_coefficient
    rw [if_pos hz, if_pos hz, if_pos hz]
    simp [hz.1, hz.2]
  · have hS : 0 < npSum g + npSum p := by
      rcases Nat.eq_zero_or_pos (npSum g + npSum p) with h | h
      · exact absurd ⟨by omega, by omega⟩ hz
      · exact h
    have hU : 0 < npSum (npOr g p) := by
      rcases not_and_or.mp hz with h | h
      · exact lt_of_lt_of_le (Nat.pos_of_ne_zero h) (npSum_le_npOr_left hl hg hp)
      · exact lt_of_lt_of_le (Nat.pos_of_ne_zero h) (npSum_le_npOr_right hl hg hp)
    unfold compute_all_metrics dice_coefficient iou_coefficient
      precision_coefficient recall_coefficient
    rw [if_neg hz, if_neg hz, if_neg hz, if_pos hS, if_pos hU]
    simp only [Prod.mk.injEq]
    refine ⟨trivial, trivial, ?_, ?_⟩ <;>
      split_ifs <;> first | rfl | (exfalso; omega)

/-- Witness for C10 at a concrete input. -/
theorem compute_all_metrics_eq_individual_witness :
    Binary ([1, 0] : Mask) ∧ Binary ([1, 1] : Mask) ∧
    compute_all_metrics [1, 0] [1, 1] =
      (dice_coefficient [1, 0] [1, 1], iou_coefficient [1, 0] [1, 1],
       precision_coefficient [1, 0] [1, 1], recall_coefficient [1, 0] [1, 1]) :=
  ⟨by decide, by decide,
    compute_all_metrics_eq_individual [1, 0] [1, 1] rfl (by decide) (by decide)⟩

/-- C8: refuted on the code. For bit-identical non-empty masks the code
returns n / (n + 1e-8), strictly below 1. At the repo's own
`test_perfect_match` input (a 10x10 all-ones mask as both reference and
prediction, n = 100) precision and recall evaluate to
10^10 / (10^10 + 1) < 1, so the assertion `== 1.0` in
test_metrics.py fails. -/
theorem precision_recall_identical_below_one :
    precision_coefficient (List.replicate 100 1) (List.replicate 100 1) =
      10000000000 / 10000000001 ∧
    recall_coefficient (List.replicate 100 1) (List.replicate 100 1) =
      10000000000 / 10000000001 ∧
    (10000000000 : ℚ) / 10000000001 < 1 := by
  have h1 : npSum (npAnd (List.replicate 100 1) (List.replicate 100 1)) = 100 := by
    decide
  have h2 : npSum (List.replicate 100 1) = 100 := by decide
  refine ⟨?_, ?_, by norm_num⟩
  · rw [precision_coefficient, h1, h2]
    norm_num [EPS]
  · rw [recall_coefficient, h1, h2]
    norm_num [EPS]

/-- Embeds pso_segmentation.py line 77: `(img * 255).astype(np.uint8)`.
Intensities lie in [0,1], so the numpy float-to-uint8 conversion is
truncation toward zero; the wrap modulo 256 of the C cast is carried for
faithfulness. -/
def imgToUint8 (img : Image) : List Nat :=
  img.map (fun x => (⌊x * 255⌋).toNat % 256)

/-- Embeds the OpenCV call
`cv2.threshold(src, thresh, maxval, cv2.THRESH_BINARY + cv2.THRESH_OTSU)`
at pso_segmentation.py lines 78-80. Per OpenCV's documented contract the
call returns the pair (retval, dst): `retval` is the Otsu-computed
threshold and `dst` the binarized image (maxval where the source pixel
exceeds the threshold, 0 elsewhere). The Otsu histogram computation is
kept abstract as the parameter `otsu`. -/
def cv2_threshold_otsu (otsu : List Nat → ℚ) (src : List Nat) (maxval : Nat) :
    ℚ × List Nat :=
  (otsu src, src.map (fun v => if otsu src < (v : ℚ) then maxval else 0))

/-- Embeds pso_segmentation.py lines 71-83: finalization of the swarm
candidate `float(best_pos[0])`. The code unpacks
`_, threshold_otsu = cv2.threshold(...)`, so `threshold_otsu` is bound to
the binarized image (the second tuple component), and the function
returns `threshold_otsu / 255.0`. The returned value is therefore either
a Python float (`Sum.inl`, the non-degenerate branch) or a numpy array
(`Sum.inr`, the fallback branch). -/
def pso_threshold_finalize (otsu : List Nat → ℚ) (img : Image) (candidate : ℚ) :
    ℚ ⊕ List ℚ :=
  if candidate ≤ 1 / 100 ∨ 99 / 100 ≤ candidate then
    Sum.inr
      (((cv2_threshold_otsu otsu (imgToUint8 img) 255).2).map (fun v => (v : ℚ) / 255))
  else Sum.inl candidate

/-- C4: refuted on the code. With a degenerate swarm candidate (0, at
the lower search boundary) on the image [51/255, 204/255] and an Otsu
routine reporting threshold 127, the finalization step returns the
Otsu-BINARIZED IMAGE divided by 255 (the array [0, 1]) instead of the
Otsu threshold 127/255 scaled to [0,1]: `cv2.threshold`'s return pair is
unpacked in the wrong order. The non-degenerate branch does keep the
candidate unchanged. -/
theorem pso_fallback_is_binarized_image :
    pso_threshold_finalize (fun _ => 127) [51 / 255, 204 / 255] 0 =
      Sum.inr [0, 1] ∧
    pso_threshold_finalize (fun _ => 127) [51 / 255, 204 / 255] (1 / 2) =
      Sum.inl (1 / 2) := by
  constructor
  · rw [pso_threshold_finalize, if_pos (by norm_num)]
    have h : imgToUint8 [51 / 255, 204 / 255] = [51, 204] := by
      rw [imgToUint8]
      norm_num
      decide
    rw [h, cv2_threshold_otsu]
    norm_num
  · rw [pso_threshold_finalize, if_neg (by norm_num)]

/-- C5: refuted on the code. With a swarm candidate at the upper search
boundary (1.0, inside the configured bounds [0,1]) the fallback fires and
the optimizer returns a numpy array, not a single scalar; with an
interior candidate such as 1/2 it does return that scalar, which lies in
[0, 1]. -/
theorem pso_boundary_result_not_scalar :
    (pso_threshold_finalize (fun _ => 127) [51 / 255, 204 / 255] 1).isRight = true ∧
    pso_threshold_finalize (fun _ => 127) [51 / 255, 204 / 255] (2 / 5) =
      Sum.inl (2 / 5) ∧
    (0 : ℚ) ≤ 2 / 5 ∧ (2 / 5 : ℚ) ≤ 1 := by
  refine ⟨?_, ?_, by norm_num, by norm_num⟩
  · rw [pso_threshold_finalize, if_pos (by norm_num)]
    rfl
  · rw [pso_threshold_finalize, if_neg (by norm_num)]

/-- Per-slice output record: what process_image_sequential (main.py
lines 30-62) returns, and the payload of process_single_image
(parallel_processing.py lines 18-66) after the leading base name. -/
structure SliceOut where
  metrics : ℚ × ℚ × ℚ × ℚ
  threshold : Option ℚ
  img : Image
  mask : Mask
  pred : Mask

/-- Embeds main.py `process_image_sequential` (lines 30-62) after the two
loads: classify by mask emptiness, invoke the optimizer (abstracted as the
function `pso`) only on tumor slices, threshold the image, compute
metrics. -/
def process_image_sequential (pso : Image → Mask → ℚ) (img : Image) (mask : Mask) :
    SliceOut :=
  if npSum mask = 0 then
    { metrics := compute_all_metrics mask (npZerosLike mask), threshold := none,
      img := img, mask := mask, pred := npZerosLike mask }
  else
    { metrics := compute_all_metrics mask (npGt img (pso img mask)),
      threshold := some (pso img mask), img := img, mask := mask,
      pred := npGt img (pso img mask) }

/-- A Python exception raised by a collaborator (unreadable file, shape
mismatch, a failure inside the optimizer, ...). -/
inductive PyErr where
  | ioError
  | valueError

/-- One unit of batch work, described by what the I/O collaborators and
the optimizer do for it: whether the derived mask path exists, what
`load_image` / `load_mask` produce (or raise), and what `pso_threshold`
produces (or raises). -/
structure WorkItem where
  maskExists : Bool
  loadImg : Except PyErr Image
  loadMask : Except PyErr Mask
  psoResult : Except PyErr ℚ

/-- Embeds parallel_processing.py `process_single_image` (lines 18-66):
returns `none` when the mask path is missing, when a load raises, or when
the optimizer raises (the enclosing `try/except` catches every
exception); otherwise classifies the slice and builds the record. The
tumor branch mirrors
`pred = (img > threshold).astype(np.uint8) if threshold else np.zeros_like(mask)`:
a falsy (zero) threshold yields an all-zero prediction. -/
def process_single_image (process_tumor : Bool) (it : WorkItem) : Option SliceOut :=
  if it.maskExists = false then none
  else
    match it.loadImg with
    | .error _ => none
    | .ok img =>
      match it.loadMask with
      | .error _ => none
      | .ok mask =>
        if npSum mask = 0 then
          some { metrics := compute_all_metrics mask (npZerosLike mask),
                 threshold := none, img := img, mask := mask,
                 pred := npZerosLike mask }
        else
          match (if process_tumor then it.psoResult else Except.ok (1 / 2)) with
          | .error _ => none
          | .ok threshold =>
            some { metrics := compute_all_metrics mask
                     (if threshold = 0 then npZerosLike mask else npGt img threshold),
                   threshold := some threshold, img := img, mask := mask,
                   pred := if threshold = 0 then npZerosLike mask
                           else npGt img threshold }

/-- Embeds parallel_processing.py `process_images_parallel` (lines
69-105): map the per-item worker over the batch, then
`[r for r in results if r is not None]`. -/
def process_images_parallel (process_tumor : Bool) (items : List WorkItem) :
    List SliceOut :=
  (items.map (process_single_image process_tumor)).filterMap id

lemma process_images_parallel_eq_filterMap (process_tumor : Bool)
    (items : List WorkItem) :
    process_images_parallel process_tumor items =
      items.filterMap (process_single_image process_tumor) := by
  induction items with
  | nil => rfl
  | cons it its ih =>
    rw [process_images_parallel] at ih ⊢
    cases h : process_single_image process_tumor it <;>
      simp [List.filterMap_cons, h, ih]

lemma filterMap_length_add_none_count (f : WorkItem → Option SliceOut)
    (items : List WorkItem) :
    (items.filterMap f).length +
      (items.filter (fun it => (f it).isNone)).length = items.length := by
  induction items with
  | nil => rfl
  | cons it its ih =>
    cases h : f it <;>
      simp [List.filterMap_cons, List.filter_cons, h] <;> omega

/-- C7: the batch result count is at most the input count, the
difference is exactly the number of items whose worker returned None
(missing mask, unreadable or shape-mismatched input, or an exception
during processing), and a failing unit is simply dropped: it never
terminates the batch, which processes the remaining items exactly as if
the failing unit were absent. -/
theorem batch_drops_failed_units (process_tumor : Bool) (items : List WorkItem) :
    (process_images_parallel process_tumor items).length ≤ items.length ∧
    (process_images_parallel process_tumor items).length +
      (items.filter
        (fun it => (process_single_image process_tumor it).isNone)).length =
      items.length ∧
    (∀ pre post it, (process_single_image process_tumor it).isNone = true →
      process_images_parallel process_tumor (pre ++ it :: post) =
        process_images_parallel process_tumor pre ++
          process_images_parallel process_tumor post) := by
  have hfm := process_images_parallel_eq_filterMap process_tumor
  have hcount := filterMap_length_add_none_count
    (process_single_image process_tumor) items
  refine ⟨?_, ?_, fun pre post it h => ?_⟩
  · rw [hfm]
    omega
  · rw [hfm]
    omega
  · have hnone : process_single_image process_tumor it = none :=
      Option.isNone_iff_eq_none.mp h
    rw [hfm, hfm, hfm]
    simp [List.filterMap_append, List.filterMap_cons, hnone]

/-- Witness for C7: a batch whose single item lacks its mask file
produces an empty result set rather than an error. -/
theorem batch_drops_failed_units_witness :
    (process_single_image true
      ⟨false, Except.ok [], Except.ok [], Except.ok 0⟩).isNone = true ∧
    process_images_parallel true
      [⟨false, Except.ok [], Except.ok [], Except.ok 0⟩] = [] := by
  refine ⟨rfl, ?_⟩
  have h := (batch_drops_failed_units true []).2.2 [] []
    ⟨false, Except.ok [], Except.ok [], Except.ok 0⟩ rfl
  simpa using h

/-- C2: the per-slice policy. An empty mask classifies the slice healthy:
all-zero prediction and null threshold, in both the sequential and the
parallel worker. A non-empty mask classifies it pathological: the
optimizer's value t becomes the recorded threshold and the prediction is
Image > t (the parallel worker's truthiness guard `if threshold` is
immaterial for every nonzero t, and the finalized optimizer output is
never the scalar 0 since candidates at most 0.01 are replaced). Hence a
record's threshold is non-null exactly when the slice is pathological. -/
theorem slice_policy (pso : Image → Mask → ℚ) (img : Image) (mask : Mask)
    (t : ℚ) (ht : t ≠ 0) :
    (npSum mask = 0 →
      process_image_sequential pso img mask =
        { metrics := compute_all_metrics mask (npZerosLike mask),
          threshold := none, img := img, mask := mask,
          pred := npZerosLike mask } ∧
      process_single_image true ⟨true, Except.ok img, Except.ok mask, Except.ok t⟩ =
        some { metrics := compute_all_metrics mask (npZerosLike mask),
               threshold := none, img := img, mask := mask,
               pred := npZerosLike mask }) ∧
    (npSum mask ≠ 0 →
      process_image_sequential pso img mask =
        { metrics := compute_all_metrics mask (npGt img (pso img mask)),
          threshold := some (pso img mask), img := img, mask := mask,
          pred := npGt img (pso img mask) } ∧
      process_single_image true ⟨true, Except.ok img, Except.ok mask, Except.ok t⟩ =
        some { metrics := compute_all_metrics mask (npGt img t),
               threshold := some t, img := img, mask := mask,
               pred := npGt img t }) ∧
    (∀ r, process_single_image true
        ⟨true, Except.ok img, Except.ok mask, Except.ok t⟩ = some r →
      (r.threshold.isSome = true ↔ npSum mask ≠ 0)) := by
  refine ⟨fun h => ?_, fun h => ?_, fun r hr => ?_⟩
  · constructor
    · rw [process_image_sequential, if_pos h]
    · rw [process_single_image]
      simp [h]
  · constructor
    · rw [process_image_sequential, if_neg h]
    · rw [process_single_image]
      simp [h, ht]
  · by_cases h : npSum mask = 0
    · rw [process_single_image] at hr
      simp [h] at hr
      simp [← hr, h]
    · rw [process_single_image] at hr
      simp [h, ht] at hr
      simp [← hr, h]

/-- Witness for C2: a one-pixel tumor slice with optimizer value 1/4. -/
theorem slice_policy_witness :
    npSum [1] ≠ 0 ∧ (1 / 4 : ℚ) ≠ 0 ∧
    process_single_image true
      ⟨true, Except.ok [1 / 2], Except.ok [1], Except.ok (1 / 4)⟩ =
      some { metrics := compute_all_metrics [1] (npGt [1 / 2] (1 / 4)),
             threshold := some (1 / 4), img := [1 / 2], mask := [1],
             pred := npGt [1 / 2] (1 / 4) } :=
  ⟨by decide, by norm_num,
    ((slice_policy (fun _ _ => 1 / 4) [1 / 2] [1] (1 / 4) (by norm_num)).2.1
      (by decide)).2⟩

/-- Embeds numpy `np.mean` over a nonzero-length float list. -/
def np_mean (l : List ℚ) : ℚ := l.sum / l.length

/-- Embeds numpy `np.std` (population standard deviation): the square
root of the mean squared deviation. The floating square root is
abstracted as the parameter `sqrt`. -/
def np_std (sqrt : ℚ → ℚ) (l : List ℚ) : ℚ :=
  sqrt ((l.map (fun x => (x - np_mean l) ^ 2)).sum / l.length)

/-- Embeds numpy `np.min` (callers guard against the empty list, on
which numpy raises; the 0 default is dead code under that guard). -/
def np_min (l : List ℚ) : ℚ :=
  match l with
  | [] => 0
  | x :: xs => xs.foldl min x

/-- Embeds numpy `np.max` (same guard remark as `np_min`). -/
def np_max (l : List ℚ) : ℚ :=
  match l with
  | [] => 0
  | x :: xs => xs.foldl max x

/-- Embeds numpy `np.median`: middle element of the sorted list, or the
average of the two middle elements for even length. -/
def np_median (l : List ℚ) : ℚ :=
  if l.length % 2 = 1 then
    (l.mergeSort (fun a b => decide (a ≤ b))).getD (l.length / 2) 0
  else
    ((l.mergeSort (fun a b => decide (a ≤ b))).getD (l.length / 2 - 1) 0 +
     (l.mergeSort (fun a b => decide (a ≤ b))).getD (l.length / 2) 0) / 2

/-- One five-number summary dictionary of results_exporter.py:
mean/std/min/max/median of one metric column. -/
structure StatBlock where
  mean : ℚ
  std : ℚ
  lo : ℚ
  hi : ℚ
  median : ℚ

/-- Builds one StatBlock the way generate_summary_statistics does for
each metric column. -/
def statBlock (sqrt : ℚ → ℚ) (l : List ℚ) : StatBlock :=
  ⟨np_mean l, np_std sqrt l, np_min l, np_max l, np_median l⟩

/-- One group's entry in the summary dictionary: the tumour group also
carries threshold statistics, the healthy group does not. -/
structure GroupStats where
  count : Nat
  dice : StatBlock
  iou : StatBlock
  precision : StatBlock
  recallStat : StatBlock
  threshold : Option StatBlock

/-- The summary dictionary: each group key is present only when its
metric list is non-empty. -/
structure SummaryStats where
  tumour : Option GroupStats
  healthy : Option GroupStats

/-- Embeds results_exporter.py `generate_summary_statistics` (lines
75-174): starting from the empty dict, the tumour entry is inserted only
under `if tumour_metrics:` (Python truthiness: the list is non-empty) and
the healthy entry only under `if healthy_metrics:`; all statistics are
computed inside those guards. -/
def generate_summary_statistics (sqrt : ℚ → ℚ)
    (tumour_metrics healthy_metrics : List (ℚ × ℚ × ℚ × ℚ))
    (tumour_thresholds : List ℚ) : SummaryStats :=
  { tumour :=
      if tumour_metrics.isEmpty then none
      else some
        { count := tumour_metrics.length,
          dice := statBlock sqrt (tumour_metrics.map (fun m => m.1)),
          iou := statBlock sqrt (tumour_metrics.map (fun m => m.2.1)),
          precision := statBlock sqrt (tumour_metrics.map (fun m => m.2.2.1)),
          recallStat := statBlock sqrt (tumour_metrics.map (fun m => m.2.2.2)),
          threshold := some (statBlock sqrt tumour_thresholds) },
    healthy :=
      if healthy_metrics.isEmpty then none
      else some
        { count := healthy_metrics.length,
          dice := statBlock sqrt (healthy_metrics.map (fun m => m.1)),
          iou := statBlock sqrt (healthy_metrics.map (fun m => m.2.1)),
          precision := statBlock sqrt (healthy_metrics.map (fun m => m.2.2.1)),
          recallStat := statBlock sqrt (healthy_metrics.map (fun m => m.2.2.2)),
          threshold := none } }

/-- C9: a group's summary is present exactly when its metric list is
non-empty; an empty group is omitted entirely (its statistics, means
included, are only ever computed inside the non-emptiness guard). -/
theorem summary_group_present_iff_nonempty (sqrt : ℚ → ℚ)
    (tm hm : List (ℚ × ℚ × ℚ × ℚ)) (tt : List ℚ) :
    ((generate_summary_statistics sqrt tm hm tt).tumour.isSome = !tm.isEmpty) ∧
    ((generate_summary_statistics sqrt tm hm tt).healthy.isSome = !hm.isEmpty) := by
  rw [generate_summary_statistics]
  constructor
  · cases h : tm.isEmpty <;> simp [h]
  · cases h : hm.isEmpty <;> simp [h]

/-- Embeds config.py `RANDOM_SEED = 0` (line 39, commented 'Random seed
for reproducibility'). -/
def RANDOM_SEED : Nat := 0

/-- Embeds config.py `PSO_N_PARTICLES = 30`. -/
def PSO_N_PARTICLES : Nat := 30

/-- Embeds config.py `PSO_ITERATIONS = 40`. -/
def PSO_ITERATIONS : Nat := 40

/-- Embeds config.py `PSO_OPTIONS = {'c1': 1.5, 'c2': 1.5, 'w': 0.5}`:
the inertia weight. -/
def PSO_W : ℚ := 1 / 2

/-- Cognitive coefficient c1 from config.py `PSO_OPTIONS`. -/
def PSO_C1 : ℚ := 3 / 2

/-- Social coefficient c2 from config.py `PSO_OPTIONS`. -/
def PSO_C2 : ℚ := 3 / 2

/-- Embeds config.py `PSO_BOUNDS = (0.0, 1.0)`. -/
def PSO_BOUNDS : ℚ × ℚ := (0, 1)

/-- Process-wide random-generator state of a Python run: the `random`
module's generator and numpy's global generator are two independent
objects. -/
structure PyGlobals where
  pyRandomState : Nat
  npRandomState : Nat

/-- Embeds main.py line 94 `random.seed(config.RANDOM_SEED)`: Python's
`random.seed` reinitializes only the `random` module's generator; numpy's
global generator is untouched. -/
def random_seed (seed : Nat) (g : PyGlobals) : PyGlobals :=
  { g with pyRandomState := seed }

/-- Embeds the inner `objective` of pso_segmentation.py (lines 35-61) at
one particle position: the negative Dice of (img > thresh) against the
ground-truth mask, with the inlined 1e-8 smoothing. -/
def pso_objective (img : Image) (gt_mask : Mask) (thresh : ℚ) : ℚ :=
  -(if npSum gt_mask = 0 ∧ npSum (npGt img thresh) = 0 then 1
    else 2 * (npSum (npAnd gt_mask (npGt img thresh)) : ℚ) /
      ((npSum gt_mask : ℚ) + (npSum (npGt img thresh) : ℚ) + EPS))

/-- One particle of the swarm (spec data model: position, velocity,
personal best position and score). -/
structure Particle where
  pos : ℚ
  vel : ℚ
  bestPos : ℚ
  bestScore : ℚ

/-- Clipping a position into the search bounds. -/
def clip (lo hi x : ℚ) : ℚ := max lo (min hi x)

/-- Draws n consecutive values from a uniform stream `nextU` (state in,
value and successor state out), returning the draws and the final
state. -/
def drawList (nextU : Nat → ℚ × Nat) : Nat → Nat → List ℚ × Nat
  | 0, st => ([], st)
  | n + 1, st =>
      ((nextU st).1 :: (drawList nextU n (nextU st).2).1,
       (drawList nextU n (nextU st).2).2)

/-- Modelled from the spec: swarm initialization (spec 4.2 Initialized,
for the external pyswarms GlobalBestPSO): position drawn uniformly from
[lo, hi], velocity from a small symmetric range, personal best set to the
initial position and its score. `u`, `v` are the two uniform draws. -/
def initParticle (fit : ℚ → ℚ) (lo hi u v : ℚ) : Particle :=
  { pos := lo + u * (hi - lo), vel := (v - 1 / 2) * (hi - lo),
    bestPos := lo + u * (hi - lo), bestScore := fit (lo + u * (hi - lo)) }

/-- Global best (position, score) among the particles' personal bests,
minimizing the score. -/
def globalBest : List Particle → ℚ × ℚ
  | [] => (0, 0)
  | q :: qs =>
      qs.foldl
        (fun acc r => if r.bestScore < acc.2 then (r.bestPos, r.bestScore) else acc)
        (q.bestPos, q.bestScore)

/-- Modelled from the spec: one swarm iteration (spec 4.2 Iterating, for
the external pyswarms optimizer): per particle, evaluate the fitness,
update the personal and global bests if improved, draw r1 and r2 from the
uniform stream, update the velocity by
w*v + c1*r1*(personalBest - pos) + c2*r2*(globalBest - pos), move, and
clip into [lo, hi]. -/
def stepParticles (nextU : Nat → ℚ × Nat) (fit : ℚ → ℚ) (lo hi w c1 c2 : ℚ) :
    List Particle → ℚ × ℚ → Nat → List Particle × (ℚ × ℚ) × Nat
  | [], gb, st => ([], gb, st)
  | q :: qs, gb, st =>
      let score := fit q.pos
      let pb := if score < q.bestScore then (q.pos, score)
                else (q.bestPos, q.bestScore)
      let gb' := if pb.2 < gb.2 then pb else gb
      let r1 := (nextU st).1
      let r2 := (nextU (nextU st).2).1
      let st2 := (nextU (nextU st).2).2
      let vel := w * q.vel + c1 * r1 * (pb.1 - q.pos) + c2 * r2 * (gb'.1 - q.pos)
      let q' : Particle :=
        { pos := clip lo hi (q.pos + vel), vel := vel,
          bestPos := pb.1, bestScore := pb.2 }
      let rest := stepParticles nextU fit lo hi w c1 c2 qs gb' st2
      (q' :: rest.1, rest.2.1, rest.2.2)

/-- Runs a fixed number of swarm iterations. -/
def iterSwarm (nextU : Nat → ℚ × Nat) (fit : ℚ → ℚ) (lo hi w c1 c2 : ℚ) :
    Nat → List Particle × (ℚ × ℚ) × Nat → List Particle × (ℚ × ℚ) × Nat
  | 0, s => s
  | k + 1, s =>
      iterSwarm nextU fit lo hi w c1 c2 k
        (stepParticles nextU fit lo hi w c1 c2 s.1 s.2.1 s.2.2)

/-- Modelled from the spec: the swarm search of
`optimizer.optimize(objective, iters=...)` in pso_segmentation.py lines
64-71, delegated to the external pyswarms GlobalBestPSO: initialize n
particles from the uniform stream, iterate, and return the global best
position (the candidate threshold) together with the final stream
state. The fitness is the source's `objective`. -/
def pso_search (nextU : Nat → ℚ × Nat) (img : Image) (gt_mask : Mask)
    (n iters : Nat) (st : Nat) : ℚ × Nat :=
  ((iterSwarm nextU (pso_objective img gt_mask) PSO_BOUNDS.1 PSO_BOUNDS.2
      PSO_W PSO_C1 PSO_C2 iters
      (List.zipWith
        (initParticle (pso_objective img gt_mask) PSO_BOUNDS.1 PSO_BOUNDS.2)
        (drawList nextU n st).1
        (drawList nextU n (drawList nextU n st).2).1,
       globalBest
        (List.zipWith
          (initParticle (pso_objective img gt_mask) PSO_BOUNDS.1 PSO_BOUNDS.2)
          (drawList nextU n st).1
          (drawList nextU n (drawList nextU n st).2).1),
       (drawList nextU n (drawList nextU n st).2).2)).2.1.1,
   (iterSwarm nextU (pso_objective img gt_mask) PSO_BOUNDS.1 PSO_BOUNDS.2
      PSO_W PSO_C1 PSO_C2 iters
      (List.zipWith
        (initParticle (pso_objective img gt_mask) PSO_BOUNDS.1 PSO_BOUNDS.2)
        (drawList nextU n st).1
        (drawList nextU n (drawList nextU n st).2).1,
       globalBest
        (List.zipWith
          (initParticle (pso_objective img gt_mask) PSO_BOUNDS.1 PSO_BOUNDS.2)
          (drawList nextU n st).1
          (drawList nextU n (drawList nextU n st).2).1),
       (drawList nextU n (drawList nextU n st).2).2)).2.2)

/-- One full `pso_threshold` invocation: swarm search followed by the
finalization step of pso_segmentation.py lines 71-83, threading the
numpy stream state. -/
def pso_threshold_run (nextU : Nat → ℚ × Nat) (otsu : List Nat → ℚ)
    (img : Image) (gt_mask : Mask) (n iters : Nat) (st : Nat) :
    (ℚ ⊕ List ℚ) × Nat :=
  (pso_threshold_finalize otsu img (pso_search nextU img gt_mask n iters st).1,
   (pso_search nextU img gt_mask n iters st).2)

/-- A concrete toy uniform stream standing in for numpy's global
generator: value (state mod 5)/5, successor state + 1. Any
state-advancing stream exhibits the run-to-run drift; this one keeps the
arithmetic small. -/
def toyU : Nat → ℚ × Nat := fun s => ((s % 5 : Nat) / 5, s + 1)

/-- C6: refuted on the code. `random.seed(RANDOM_SEED)` leaves numpy's
global generator state unchanged (first conjunct, for every process
state), and the optimizer's output is a function of that unseeded
stream: starting from numpy state 3 after seeding, two consecutive
optimizer runs (1 particle, 1 iteration, image [1/2], mask [1]) return
the scalars 3/5 and then 2/5 — not identical. -/
theorem pso_not_seed_reproducible :
    (∀ g : PyGlobals, (random_seed RANDOM_SEED g).npRandomState = g.npRandomState) ∧
    (pso_threshold_run toyU (fun _ => 127) [1 / 2] [1] 1 1
        (random_seed RANDOM_SEED ⟨7, 3⟩).npRandomState).1 = Sum.inl (3 / 5) ∧
    (pso_threshold_run toyU (fun _ => 127) [1 / 2] [1] 1 1
        (pso_threshold_run toyU (fun _ => 127) [1 / 2] [1] 1 1
          (random_seed RANDOM_SEED ⟨7, 3⟩).npRandomState).2).1 = Sum.inl (2 / 5) ∧
    (2 / 5 : ℚ) < 3 / 5 := by
  have h1 : pso_search toyU [1 / 2] [1] 1 1 3 = (3 / 5, 7) := by
    norm_num [pso_search, drawList, initParticle, globalBest, stepParticles,
      iterSwarm, toyU, pso_objective, clip, npGt, npSum, npAnd,
      PSO_W, PSO_C1, PSO_C2, PSO_BOUNDS, EPS]
  have h2 : pso_search toyU [1 / 2] [1] 1 1 7 = (2 / 5, 11) := by
    norm_num [pso_search, drawList, initParticle, globalBest, stepParticles,
      iterSwarm, toyU, pso_objective, clip, npGt, npSum, npAnd,
      PSO_W, PSO_C1, PSO_C2, PSO_BOUNDS, EPS]
  have hseed : (random_seed RANDOM_SEED ⟨7, 3⟩).npRandomState = 3 := rfl
  refine ⟨fun g => rfl, ?_, ?_, by norm_num⟩
  · rw [pso_threshold_run, hseed, h1, pso_threshold_finalize,
      if_neg (by norm_num)]
  · rw [pso_threshold_run, pso_threshold_run, hseed, h1]
    rw [h2, pso_threshold_finalize, if_neg (by norm_num)]

end PSO
